import Mathlib

/-!
Verification of the `OptimisticTransactionDB` layer of `exonum_rocksdb`
(`src/optimistic_txn_db.rs`) against its natural-language specification.

The Rust code is a thin wrapper around a foreign base engine (RocksDB's C
API).  We embed it shallowly: raw pointers become natural numbers (`0` is the
null pointer), the foreign engine becomes an explicit record of response
functions (`Engine`), and each Rust method becomes a Lean function of the
engine and the receiver.  `BTreeMap<String, ColumnFamily>` is embedded as an
association list with insert-overwrites semantics; only lookup and insert are
used by the source.

The transaction/snapshot read path (`transaction.rs`, `rocksdb.rs`) is not
part of the sources under verification; where a claim needs it, it is
modelled from the specification and the defining doc comment says so.
-/

set_option autoImplicit false

namespace OTxn

/-- Embedding of the crate's `Error` type: a wrapper around a message string
(errors in this crate are typed only by their message text). -/
structure Error where
  message : String
deriving DecidableEq, Repr

/-- `Error::new(msg)`. -/
def Error.new (msg : String) : Error := ⟨msg⟩

/-- Embedding of `ColumnFamily`: a copyable wrapper around a raw
`rocksdb_column_family_handle_t` pointer. -/
structure ColumnFamily where
  inner : Nat
deriving DecidableEq, Repr

/-- Embedding of the `OptimisticTransactionDB` struct (lines 39-44 of
`optimistic_txn_db.rs`): the `rocksdb_optimistictransactiondb_t` pointer, the
base-db pointer obtained from it, and the column-family registry. -/
structure OptimisticTransactionDB where
  inner : Nat
  base_db : Nat
  cfs : List (String × ColumnFamily)
deriving DecidableEq, Repr

/-- The foreign base engine, as a record of the responses of the FFI calls the
wrapper makes.  `Except.error msg` models `ffi_try!` observing a non-null
error pointer with message `msg`; a returned pointer value `0` models a null
pointer. -/
structure Engine where
  /-- Response of `rocksdb_optimistictransactiondb_open`. -/
  openPlain : Except String Nat
  /-- Db pointer produced by
  `rocksdb_optimistictransactiondb_open_column_families` for a given
  name list. -/
  openCFDb : List String → Except String Nat
  /-- Value the engine stores into slot `i` of the out-array of column-family
  handles for a given name list (the array has exactly one slot per name). -/
  openCFHandle : List String → Nat → Nat
  /-- Response of `rocksdb_optimistictransactiondb_get_base_db`. -/
  getBaseDb : Nat → Nat
  /-- Response of `rocksdb_drop_column_family base_db cf_handle`:
  `none` is success. -/
  dropCF : Nat → Nat → Option String
  /-- Response of `rocksdb_merge_cf base_db cf_handle key value`:
  `none` is success. -/
  mergeCF : Nat → Nat → List Nat → List Nat → Option String

/-- `BTreeMap::insert`: overwrite the value at the key if present, otherwise
append the binding. -/
def btInsert {α : Type} : List (String × α) → String → α → List (String × α)
  | [], k, v => [(k, v)]
  | (k', v') :: rest, k, v =>
      if k = k' then (k, v) :: rest else (k', v') :: btInsert rest k v

/-- `BTreeMap::get`: first binding whose key matches. -/
def btGet {α : Type} : List (String × α) → String → Option α
  | [], _ => none
  | (k', v') :: rest, k => if k = k' then some v' else btGet rest k

/-- The name list actually passed to the engine by `open_cf`: the requested
names, with `"default"` appended when absent (lines 90-94). -/
def cfsWithDefault (cfs : List String) : List String :=
  if "default" ∈ cfs then cfs else cfs ++ ["default"]

/-- Error message of the null-column-family-handle branch of `open_cf`
(lines 125-133). -/
def nullHandleMessage : String := "Received null column family handle from DB."

/-- Error message returned when the engine hands back a null db pointer. -/
def nullDbMessage : String := "Could not initialize database."

/-- Embedding of `OptimisticTransactionDB::open_cf` (lines 76-151).  An empty
request list takes the plain-open branch and leaves the registry empty;
otherwise `"default"` is appended when absent, the engine opens all column
families, every populated handle is checked for null before the registry is
built, and finally the db pointer itself is checked for null. -/
def open_cf (eng : Engine) (cfs : List String) : Except Error OptimisticTransactionDB :=
  if cfs = [] then
    match eng.openPlain with
    | Except.error e => Except.error (Error.new e)
    | Except.ok db =>
        if db = 0 then Except.error (Error.new nullDbMessage)
        else Except.ok ⟨db, eng.getBaseDb db, []⟩
  else
    let cfs_v := cfsWithDefault cfs
    match eng.openCFDb cfs_v with
    | Except.error e => Except.error (Error.new e)
    | Except.ok db =>
        let handles := (List.range cfs_v.length).map (eng.openCFHandle cfs_v)
        if handles.any (fun h => h = 0) then
          Except.error (Error.new nullHandleMessage)
        else
          let cf_map := ((cfs_v.zip handles).map
              (fun p => (p.1, ColumnFamily.mk p.2))).foldl
            (fun m p => btInsert m p.1 p.2) []
          if db = 0 then Except.error (Error.new nullDbMessage)
          else Except.ok ⟨db, eng.getBaseDb db, cf_map⟩

/-- Embedding of `OptimisticTransactionDB::cf_handle` (lines 180-182):
`self.cfs.get(name).cloned()`.  It takes the receiver immutably and returns
only an option, so in this embedding it can neither fail nor change the
database. -/
def cf_handle (db : OptimisticTransactionDB) (name : String) : Option ColumnFamily :=
  btGet db.cfs name

/-- Error message of the unknown-column-family branch of `drop_cf`
(lines 190-194). -/
def unknownCfMessage (name : String) : String := "Invalid column family: " ++ name

/-- Embedding of `OptimisticTransactionDB::drop_cf` (lines 184-195).  The
second component is the receiver after the call: the source takes `&mut self`
but never assigns to any field, so the state is returned unchanged on every
path. -/
def drop_cf (eng : Engine) (db : OptimisticTransactionDB) (name : String) :
    Except Error Unit × OptimisticTransactionDB :=
  match btGet db.cfs name with
  | some cf =>
      match eng.dropCF db.base_db cf.inner with
      | none => (Except.ok (), db)
      | some m => (Except.error (Error.new m), db)
  | none => (Except.error (Error.new (unknownCfMessage name)), db)

/-- Embedding of `OptimisticTransactionDB::merge_cf_opt` (lines 216-235): the
column-family handle supplied by the caller is forwarded to the engine
without any check against the registry. -/
def merge_cf_opt (eng : Engine) (db : OptimisticTransactionDB) (cf : ColumnFamily)
    (key value : List Nat) : Except Error Unit :=
  match eng.mergeCF db.base_db cf.inner key value with
  | none => Except.ok ()
  | some m => Except.error (Error.new m)

/-- `Clone` is derived on `OptimisticTransactionDB` (line 39): the clone is a
field-wise copy, sharing the raw `inner` and `base_db` pointer values. -/
def cloneDb (db : OptimisticTransactionDB) : OptimisticTransactionDB := db

/-- One engine-resource release performed by a destructor. -/
inductive ReleaseAction where
  /-- `rocksdb_optimistictransactiondb_close_base_db`. -/
  | closeBaseDb : Nat → ReleaseAction
  /-- `rocksdb_optimistictransactiondb_close`. -/
  | closeDb : Nat → ReleaseAction
  /-- `rocksdb_column_family_handle_destroy` (available in the FFI surface but
  never called by this file). -/
  | destroyCF : Nat → ReleaseAction
  /-- `rocksdb_free` of a snapshot pointer. -/
  | freeSnapshot : Nat → ReleaseAction
deriving DecidableEq, Repr

/-- Embedding of `impl Drop for OptimisticTransactionDB` (lines 246-253): the
exact sequence of engine releases the destructor performs.  It closes the
base db, then the transaction db; no field of the receiver holds a
destructor of its own (`ColumnFamily` is a plain copyable pointer wrapper),
so no other release happens. -/
def dropReleases (db : OptimisticTransactionDB) : List ReleaseAction :=
  [ReleaseAction.closeBaseDb db.base_db, ReleaseAction.closeDb db.inner]

/-! ### Registry (association-list) lemmas -/

theorem btGet_btInsert_self {α : Type} (m : List (String × α)) (k : String) (v : α) :
    btGet (btInsert m k v) k = some v := by
  induction m with
  | nil => simp [btInsert, btGet]
  | cons hd tl ih =>
      obtain ⟨k', v'⟩ := hd
      by_cases hk : k = k' <;> simp [btInsert, btGet, hk, ih]

theorem btGet_btInsert_ne {α : Type} (m : List (String × α)) {k a : String} (v : α)
    (hne : k ≠ a) : btGet (btInsert m a v) k = btGet m k := by
  induction m with
  | nil => simp [btInsert, btGet, hne]
  | cons hd tl ih =>
      obtain ⟨k', v'⟩ := hd
      by_cases ha : a = k'
      · subst ha
        simp [btInsert, btGet, hne]
      · by_cases hk : k = k' <;> simp [btInsert, btGet, ha, hk, ih]

theorem btGet_isSome_iff_mem {α : Type} (m : List (String × α)) (k : String) :
    (btGet m k).isSome ↔ k ∈ m.map Prod.fst := by
  induction m with
  | nil => simp [btGet]
  | cons hd tl ih =>
      obtain ⟨k', v'⟩ := hd
      by_cases hk : k = k' <;> simp [btGet, hk, ih]

theorem btGet_foldl_insert_isSome {α : Type} (pairs : List (String × α))
    (m0 : List (String × α)) (k : String)
    (h : k ∈ pairs.map Prod.fst ∨ (btGet m0 k).isSome) :
    (btGet (pairs.foldl (fun m p => btInsert m p.1 p.2) m0) k).isSome := by
  induction pairs generalizing m0 with
  | nil =>
      rcases h with h | h
      · simp at h
      · simpa using h
  | cons hd tl ih =>
      obtain ⟨a, v⟩ := hd
      apply ih
      by_cases hk : k = a
      · subst hk
        right
        simp [btGet_btInsert_self]
      · rcases h with h | h
        · simp at h
          rcases h with h | h
          · exact absurd h hk
          · left; simpa using h
        · right
          simpa [btGet_btInsert_ne _ _ hk] using h

theorem default_mem_cfsWithDefault (cfs : List String) :
    "default" ∈ cfsWithDefault cfs := by
  unfold cfsWithDefault
  split
  · assumption
  · simp

theorem length_le_cfsWithDefault (cfs : List String) :
    cfs.length ≤ (cfsWithDefault cfs).length := by
  unfold cfsWithDefault
  split
  · exact le_refl _
  · simp

/-! ### Concrete engines and databases used as evaluation inputs -/

/-- A fully cooperative engine: every call succeeds and every populated
handle is the non-null pointer `1`. -/
def okEngine : Engine where
  openPlain := Except.ok 1
  openCFDb := fun _ => Except.ok 1
  openCFHandle := fun _ _ => 1
  getBaseDb := fun p => p + 100
  dropCF := fun _ _ => none
  mergeCF := fun _ _ _ _ => none

/-- An engine whose column-family open populates every handle slot with the
null pointer. -/
def nullHandleEngine : Engine where
  openPlain := Except.ok 1
  openCFDb := fun _ => Except.ok 1
  openCFHandle := fun _ _ => 0
  getBaseDb := fun p => p + 100
  dropCF := fun _ _ => none
  mergeCF := fun _ _ _ _ => none

/-- A database with one registered column family `"cf1"` whose handle is the
pointer `7`. -/
def dbReg : OptimisticTransactionDB := ⟨1, 101, [("cf1", ⟨7⟩)]⟩

/-- A database with an empty registry. -/
def dbEmpty : OptimisticTransactionDB := ⟨1, 101, []⟩

/-! ### Claims -/

/-- Claim C8: `cf_handle(name)` is a pure lookup: it returns `Some` exactly
when `name` is a key of the column-family registry and `None` otherwise.  It
cannot return an error and cannot change the database: in the embedding its
result type is a plain `Option ColumnFamily` and it takes the receiver
immutably, mirroring the `&self` receiver of the source. -/
theorem cf_handle_pure_lookup (db : OptimisticTransactionDB) (name : String) :
    ((cf_handle db name).isSome ↔ name ∈ db.cfs.map Prod.fst) ∧
    (cf_handle db name = none ↔ name ∉ db.cfs.map Prod.fst) := by
  constructor
  · exact btGet_isSome_iff_mem db.cfs name
  · rw [← btGet_isSome_iff_mem db.cfs name]
    cases h : btGet db.cfs name <;> simp [cf_handle, h]

/-- Claim C1, counterexample: with an empty requested list, `open_cf` takes
the plain-open branch (line 82), registers no column family at all, and
`cf_handle "default"` on the resulting database returns `None`, refuting the
claim's "including when the requested list is empty" part. -/
theorem open_cf_empty_no_default :
    open_cf okEngine [] = Except.ok ⟨1, 101, []⟩ ∧
    cf_handle ⟨1, 101, []⟩ "default" = none := by
  constructor <;> rfl

/-- Claim C1, amended: for every engine and every *non-empty* requested list,
a successful `open_cf` yields a database whose registry contains `"default"`,
even when `"default"` is not in the requested list — because the source
appends `"default"` to the name list before opening (lines 92-94) and
registers every opened handle. -/
theorem open_cf_default_registered (eng : Engine) (cfs : List String)
    (db : OptimisticTransactionDB) (hne : cfs ≠ [])
    (h : open_cf eng cfs = Except.ok db) :
    (cf_handle db "default").isSome := by
  simp only [open_cf, if_neg hne] at h
  split at h
  · cases h
  · split at h
    · cases h
    · split at h
      · cases h
      · injection h with h
        subst h
        simp only [cf_handle]
        apply btGet_foldl_insert_isSome
        left
        have hlen : ((List.range (cfsWithDefault cfs).length).map
            (eng.openCFHandle (cfsWithDefault cfs))).length
            = (cfsWithDefault cfs).length := by
          simp
        rw [List.map_map]
        have : (Prod.fst ∘ fun p : String × Nat => (p.1, ColumnFamily.mk p.2))
            = Prod.fst := rfl
        rw [this, List.map_fst_zip _ _ (le_of_eq hlen.symm)]
        exact default_mem_cfsWithDefault cfs

/-- Witness for `open_cf_default_registered`: a concrete successful open with
requested list `["a"]` (not containing `"default"`). -/
theorem open_cf_default_registered_witness :
    (cf_handle ⟨1, 101, [("a", ⟨1⟩), ("default", ⟨1⟩)]⟩ "default").isSome :=
  open_cf_default_registered okEngine ["a"] _ (by decide) rfl

/-- Claim C5: for a non-empty requested list, `open_cf` returns an error —
never a database — whenever the engine reports an error (the error carries
the engine's message, via `ffi_try!`) or populates a null handle for any
requested column family; in the null-handle case the returned error is the
dedicated missing-column-family-handle error (this crate types errors by
message text), produced before the handle is ever stored or used. -/
theorem open_cf_error_paths (eng : Engine) (cfs : List String) (hne : cfs ≠ []) :
    (∀ e, eng.openCFDb (cfsWithDefault cfs) = Except.error e →
        open_cf eng cfs = Except.error (Error.new e)) ∧
    (∀ d i, eng.openCFDb (cfsWithDefault cfs) = Except.ok d →
        i < cfs.length → eng.openCFHandle (cfsWithDefault cfs) i = 0 →
        open_cf eng cfs = Except.error (Error.new nullHandleMessage)) := by
  constructor
  · intro e he
    unfold open_cf
    rw [if_neg hne]
    simp only [he]
  · intro d i hd hi hzero
    unfold open_cf
    rw [if_neg hne]
    simp only [hd]
    have hmem : (0 : Nat) ∈ (List.range (cfsWithDefault cfs).length).map
        (eng.openCFHandle (cfsWithDefault cfs)) := by
      rw [List.mem_map]
      refine ⟨i, List.mem_range.mpr ?_, hzero⟩
      exact lt_of_lt_of_le hi (length_le_cfsWithDefault cfs)
    have hany : ((List.range (cfsWithDefault cfs).length).map
        (eng.openCFHandle (cfsWithDefault cfs))).any (fun h => h = 0) = true := by
      rw [List.any_eq_true]
      exact ⟨0, hmem, by simp⟩
    simp only [hany, if_true]

/-- Witness for `open_cf_error_paths`: a concrete engine that populates a
null handle for the single requested column family makes `open_cf` return
the missing-handle error. -/
theorem open_cf_error_paths_witness :
    open_cf nullHandleEngine ["a"] = Except.error (Error.new nullHandleMessage) :=
  (open_cf_error_paths nullHandleEngine ["a"] (by decide)).2 1 0 rfl (by decide) rfl

/-- Claim C6: `drop_cf(name)` returns the unknown-column-family error
carrying `name` exactly when `name` is not in the registry at the time of the
call, and returns `Ok(())` when `name` is registered and the engine accepts
the drop.  Since this crate types errors only by message text, the iff is
stated under the assumption that the engine's own failure messages never
coincide with the unknown-column-family message. -/
theorem drop_cf_unknown_iff (eng : Engine) (db : OptimisticTransactionDB)
    (name : String)
    (hmsg : ∀ cf m, eng.dropCF db.base_db cf = some m → m ≠ unknownCfMessage name) :
    ((drop_cf eng db name).1 = Except.error (Error.new (unknownCfMessage name)) ↔
        btGet db.cfs name = none) ∧
    (∀ cf, btGet db.cfs name = some cf → eng.dropCF db.base_db cf.inner = none →
        (drop_cf eng db name).1 = Except.ok ()) := by
  constructor
  · constructor
    · intro h
      cases hg : btGet db.cfs name with
      | none => rfl
      | some cf =>
          exfalso
          cases hd : eng.dropCF db.base_db cf.inner with
          | none => simp [drop_cf, hg, hd] at h
          | some m =>
              have hne := hmsg cf.inner m hd
              simp [drop_cf, hg, hd, Error.new] at h
              exact hne h
    · intro h
      simp [drop_cf, h]
  · intro cf hg hd
    simp [drop_cf, hg, hd]

/-- Witness for `drop_cf_unknown_iff`: on a database registering `"cf1"` and
an engine that accepts the drop, `drop_cf "cf1"` returns `Ok(())`. -/
theorem drop_cf_unknown_iff_witness :
    (drop_cf okEngine dbReg "cf1").1 = Except.ok () :=
  (drop_cf_unknown_iff okEngine dbReg "cf1"
    (fun _ _ h => nomatch h)).2 ⟨7⟩ rfl rfl

/-- Claim C10: a successful `drop_cf(name)` leaves the registry unchanged —
the source never removes the binding (lines 184-195 touch no field of
`self`) — so an immediately following `cf_handle(name)` still returns the
handle of the dropped column family. -/
theorem drop_cf_registry_unchanged (eng : Engine) (db : OptimisticTransactionDB)
    (name : String) (cf : ColumnFamily)
    (hreg : btGet db.cfs name = some cf)
    (hok : eng.dropCF db.base_db cf.inner = none) :
    (drop_cf eng db name).1 = Except.ok () ∧
    (drop_cf eng db name).2 = db ∧
    cf_handle (drop_cf eng db name).2 name = some cf := by
  refine ⟨?_, ?_, ?_⟩ <;> simp [drop_cf, cf_handle, hreg, hok]

/-- Witness for `drop_cf_registry_unchanged` at the concrete database
`dbReg` and the cooperative engine. -/
theorem drop_cf_registry_unchanged_witness :
    (drop_cf okEngine dbReg "cf1").2 = dbReg ∧
    cf_handle (drop_cf okEngine dbReg "cf1").2 "cf1" = some ⟨7⟩ :=
  ⟨(drop_cf_registry_unchanged okEngine dbReg "cf1" ⟨7⟩ rfl rfl).2.1,
   (drop_cf_registry_unchanged okEngine dbReg "cf1" ⟨7⟩ rfl rfl).2.2⟩

/-- Claim C2 is refuted by the code: after a successful `drop_cf("cf1")`, the
wrapper performs no stale-handle detection whatsoever.  `cf_handle("cf1")`
still hands out the dropped handle (the registry is untouched), and an
operation using that handle — here `merge_cf_opt` — is forwarded straight to
the engine and *succeeds* whenever the engine accepts it, instead of failing
as the claim requires. -/
theorem stale_handle_not_rejected :
    (drop_cf okEngine dbReg "cf1").1 = Except.ok () ∧
    cf_handle (drop_cf okEngine dbReg "cf1").2 "cf1" = some ⟨7⟩ ∧
    merge_cf_opt okEngine (drop_cf okEngine dbReg "cf1").2 ⟨7⟩ [1] [2]
      = Except.ok () := by
  refine ⟨rfl, rfl, rfl⟩

/-- Claim C4 is refuted by the code: `OptimisticTransactionDB` derives
`Clone`, so a clone shares the same raw pointers, and each of the two values
runs the `Drop` destructor; the combined release trace closes the same
transaction-db pointer (and the same base-db pointer) twice, violating
release-exactly-once. -/
theorem clone_drop_double_release :
    (cloneDb dbEmpty).inner = dbEmpty.inner ∧
    (dropReleases dbEmpty ++ dropReleases (cloneDb dbEmpty)).count
        (ReleaseAction.closeDb 1) = 2 ∧
    (dropReleases dbEmpty ++ dropReleases (cloneDb dbEmpty)).count
        (ReleaseAction.closeBaseDb 101) = 2 := by
  refine ⟨rfl, by decide, by decide⟩

/-- Claim C9 is refuted by the code: dropping a database whose registry holds
a column family produces the release trace `[close base db, close txn db]` —
the destructor (lines 246-253) closes the base engine *first* and never
destroys any registered column-family handle, whereas the claim requires all
column-family handles to be released before the base engine is closed. -/
theorem drop_db_skips_cf_handles :
    dropReleases dbReg = [ReleaseAction.closeBaseDb 101, ReleaseAction.closeDb 1] ∧
    (dropReleases dbReg).count (ReleaseAction.destroyCF 7) = 0 := by
  refine ⟨rfl, by decide⟩

/-! ### Snapshot and transaction read path

`Snapshot` (lines 255-326 of `optimistic_txn_db.rs`) delegates every read to
a retained `Transaction` whose implementation lives in `transaction.rs`,
which is not among the sources; the base engine's sequence-numbered history
is likewise external.  Those two parts are modelled from the specification
(§3 Snapshot, §4.2 `get`, §4.3, §5 ordering guarantees); the `Snapshot`
definitions themselves are translated from the source on top of that
model. -/

/-- Byte-string keys of the modelled engine. -/
abbrev Key := List Nat

/-- Byte-string values of the modelled engine. -/
abbrev Val := List Nat

/-- Modelled from the spec: one mutation — target column family, key, and
either a new value or a tombstone (`none`, §3 Transaction). -/
abbrev Mutation := Nat × Key × Option Val

/-- Modelled from the spec: the batch of mutations one committed transaction
contributed (§5: commits are totally ordered by sequence assignment, so the
committed history is a list of batches, oldest first). -/
abbrev WriteBatch := List Mutation

/-- Last mutation a batch records for a column family and key, if any
(later entries in a batch overwrite earlier ones). -/
def writeLookupCF : List Mutation → Nat → Key → Option (Option Val)
  | [], _, _ => none
  | (cf', k', v) :: rest, cf, k =>
      match writeLookupCF rest cf k with
      | some r => some r
      | none => if cf = cf' ∧ k = k' then some v else none

/-- Last mutation the history records for a column family and key, if any
(later batches overwrite earlier ones). -/
def histLookup : List WriteBatch → Nat → Key → Option (Option Val)
  | [], _, _ => none
  | b :: rest, cf, k =>
      match histLookup rest cf k with
      | some r => some r
      | none => writeLookupCF b cf k

/-- Modelled from the spec: the committed value of a key under a history —
the cumulative effect of the batches, a tombstone or absence reading as
not-found. -/
def valueIn (hist : List WriteBatch) (cf : Nat) (k : Key) : Option Val :=
  match histLookup hist cf k with
  | some r => r
  | none => none

/-- Every key a history mentions for a column family (with duplicates). -/
def collectKeys (hist : List WriteBatch) (cf : Nat) : List Key :=
  hist.foldr
    (fun b acc => (b.filter (fun e => e.1 = cf)).map (fun e => e.2.1) ++ acc) []

/-- Lexicographic (byte-string) order on keys. -/
def keyLeB : Key → Key → Bool
  | [], _ => true
  | _ :: _, [] => false
  | a :: as, b :: bs => if a < b then true else if b < a then false else keyLeB as bs

/-- Key list in ascending key order without duplicates. -/
def sortDedup (ks : List Key) : List Key :=
  ks.dedup.insertionSort (fun a b => keyLeB a b = true)

/-- Modelled from the spec: the part of `ReadOptions` the snapshot read path
uses — the optional pinned-snapshot marker installed by
`ReadOptions::set_snapshot`. -/
structure ReadOptions where
  snapshotSeq : Option Nat

/-- Modelled from the spec: the `Transaction` of `transaction.rs` (absent
from the sources) — a private overlay of pending mutations plus the read
sequence pinned at creation when the transaction options request a
snapshot (§3 Transaction). -/
structure Transaction where
  pinnedSeq : Option Nat
  pending : List Mutation

/-- Modelled from the spec: `transaction_begin` — local construction that
never fails; with the pin-snapshot option set it pins the current sequence
number, i.e. the length of the committed history (§4.1). -/
def transaction_begin (hist : List WriteBatch) (pinSnapshot : Bool) : Transaction :=
  ⟨if pinSnapshot then some hist.length else none, []⟩

/-- The sequence number a read actually uses: the read options' snapshot if
set, else the transaction's pinned sequence, else latest committed
(§4.2 `get`). -/
def effectiveSeq (hist : List WriteBatch) (t : Transaction) (r : ReadOptions) : Nat :=
  match r.snapshotSeq with
  | some n => n
  | none =>
      match t.pinnedSeq with
      | some n => n
      | none => hist.length

/-- Modelled from the spec: the merged-visibility read (§4.2) — the
transaction's own pending mutation for the key if present (a pending
tombstone surfacing as not-found), otherwise the committed value of the
base view. -/
def txnRead (t : Transaction) (base : List WriteBatch) (cf : Nat) (k : Key) : Option Val :=
  match writeLookupCF t.pending cf k with
  | some v => v
  | none => valueIn base cf k

/-- Modelled from the spec: `Transaction::get_opt` / `get_cf_opt` of
`transaction.rs` — the merged read against the committed history as of the
effective read sequence (`cf = 0` plays the default column family). -/
def Transaction.get_opt (hist : List WriteBatch) (t : Transaction) (r : ReadOptions)
    (cf : Nat) (k : Key) : Option Val :=
  txnRead t (hist.take (effectiveSeq hist t r)) cf k

/-- Modelled from the spec: `DBIterator::new_txn` / `new_txn_cf` of
`rocksdb.rs` — the ascending key-ordered sequence of entries of the merged
view used by `get` (§4.4; the start-mode variants enumerate the same set of
entries). -/
def DBIterator.new_txn (hist : List WriteBatch) (t : Transaction) (r : ReadOptions)
    (cf : Nat) : List (Key × Val) :=
  let base := hist.take (effectiveSeq hist t r)
  (sortDedup (collectKeys base cf
      ++ (t.pending.filter (fun e => e.1 = cf)).map (fun e => e.2.1))).filterMap
    (fun k => (txnRead t base cf k).map (fun v => (k, v)))

/-- Embedding of the `Snapshot` struct (lines 255-258): the extracted
snapshot marker and the retained backing transaction. -/
structure Snapshot where
  inner : Nat
  transaction : Transaction

/-- Embedding of `Snapshot::new` (lines 260-271): begin a transaction with
the pin-snapshot option set to true, extract its pinned-sequence marker
(`rocksdb_transaction_get_snapshot`), and retain the transaction. -/
def Snapshot.new (hist : List WriteBatch) : Snapshot :=
  let t := transaction_begin hist true
  ⟨t.pinnedSeq.getD hist.length, t⟩

/-- The read options every `Snapshot` read installs:
`r_opts.set_snapshot(self)` (lines 302-303 etc.). -/
def snapReadOpts (s : Snapshot) : ReadOptions := ⟨some s.inner⟩

/-- Embedding of `Snapshot::get` / `Snapshot::get_cf` (lines 301-311):
delegate to the retained transaction with read options carrying the pinned
snapshot. -/
def Snapshot.get_cf (hist : List WriteBatch) (s : Snapshot) (cf : Nat) (k : Key) :
    Option Val :=
  Transaction.get_opt hist s.transaction (snapReadOpts s) cf k

/-- Embedding of `Snapshot::iterator` / `iterator_cf` (lines 273-287):
delegate to the transaction-scoped iterator with read options carrying the
pinned snapshot. -/
def Snapshot.iterator (hist : List WriteBatch) (s : Snapshot) (cf : Nat) :
    List (Key × Val) :=
  DBIterator.new_txn hist s.transaction (snapReadOpts s) cf

/-- The spec's wording for a snapshot read (§4.3): the value visible as of
the snapshot's pinned sequence. -/
def snapshotSpecGet (hist : List WriteBatch) (n : Nat) (cf : Nat) (k : Key) :
    Option Val :=
  valueIn (hist.take n) cf k

/-- The spec's wording for a snapshot iterator (§4.3): the entries of the
committed state as of the pinned sequence, in key order. -/
def snapshotSpecEntries (hist : List WriteBatch) (n : Nat) (cf : Nat) :
    List (Key × Val) :=
  (sortDedup (collectKeys (hist.take n) cf)).filterMap
    (fun k => (valueIn (hist.take n) cf k).map (fun v => (k, v)))

/-- Claim C3: a snapshot taken when the committed history is `pre` (i.e.
after `T1..Tn` committed and before any later transaction commits) observes,
through `get` and through its iterator, exactly the cumulative effect of
`pre` — however many further batches `post` are committed while it is
held. -/
theorem snapshot_isolation (pre post : List WriteBatch) (cf : Nat) (k : Key) :
    Snapshot.get_cf (pre ++ post) (Snapshot.new pre) cf k = valueIn pre cf k ∧
    Snapshot.iterator (pre ++ post) (Snapshot.new pre) cf
      = snapshotSpecEntries pre pre.length cf := by
  constructor
  · simp [Snapshot.get_cf, Snapshot.new, transaction_begin, snapReadOpts,
      Transaction.get_opt, effectiveSeq, txnRead, writeLookupCF,
      List.take_left]
  · simp [Snapshot.iterator, Snapshot.new, transaction_begin, snapReadOpts,
      DBIterator.new_txn, effectiveSeq, txnRead, writeLookupCF,
      snapshotSpecEntries, List.take_left, List.take_length]

/-- Claim C7: `snapshot()` always succeeds (in the embedding `Snapshot.new`
is total, mirroring the source's non-`Result` signature), its `Snapshot` is
realized as a retained transaction begun with the pin-snapshot option set to
true, and each snapshot read — `get`/`get_cf` and the iterator — equals the
corresponding read on that underlying transaction with read options carrying
the pinned snapshot, which in turn is the spec's pinned-sequence read. -/
theorem snapshot_refines_transaction_read (hist : List WriteBatch) (cf : Nat)
    (k : Key) :
    (Snapshot.new hist).transaction = transaction_begin hist true ∧
    Snapshot.get_cf hist (Snapshot.new hist) cf k
      = Transaction.get_opt hist (Snapshot.new hist).transaction
          (snapReadOpts (Snapshot.new hist)) cf k ∧
    Snapshot.iterator hist (Snapshot.new hist) cf
      = DBIterator.new_txn hist (Snapshot.new hist).transaction
          (snapReadOpts (Snapshot.new hist)) cf ∧
    Snapshot.get_cf hist (Snapshot.new hist) cf k
      = snapshotSpecGet hist hist.length cf k := by
  refine ⟨rfl, rfl, rfl, ?_⟩
  simp [Snapshot.get_cf, Snapshot.new, transaction_begin, snapReadOpts,
    Transaction.get_opt, effectiveSeq, txnRead, writeLookupCF, snapshotSpecGet]

end OTxn
